import Mathlib

/-!
# Verification of the wasm-unityfs object projection and texture pipeline

This file embeds the core of `crates/wasm-unityfs/src/lib.rs`: the typed
value model (`Data`), the deep and shallow projectors (`convert_data`,
`convert_shallow`), the streaming descriptor (`StreamingInfo`), and the
texture reconstruction engine (`Texture2D` with `read_etc`, `read_dxt`,
`read`, `load`, `defer`, `unknown`, `try_resolve`).

Rust strings are modelled as lists of characters, byte buffers as lists of
naturals below 256.  The external collaborators (the container parser, the
mobile/desktop block decoders and the image encoder) are out of scope of the
repository and are modelled, following the spec, as fields of an `Externals`
record: each is an arbitrary function of the data the source hands it.
Rust panics are modelled as the distinguished outcome `Fault.panic`,
distinct from the `JsValue` error objects the source constructs.
-/

set_option maxHeartbeats 1000000

/-- Characters of a Rust string literal. -/
def rstr (s : String) : List Char := s.data

/-- The closed tagged value union produced by the container parser
(`unityfs::Data`).  64-bit and floating payloads are carried opaquely
(`Float`); no claim depends on their arithmetic. -/
inductive Data where
  | bool (b : Bool)
  | uint8 (v : Nat)
  | uint16 (v : Nat)
  | uint32 (v : Nat)
  | uint64 (v : Nat)
  | sint8 (v : Int)
  | sint16 (v : Int)
  | sint32 (v : Int)
  | sint64 (v : Int)
  | float (v : Float)
  | double (v : Float)
  | uint8Array (bytes : List Nat)
  | string (bytes : List Nat)
  | pair (fst snd : Data)
  | genericArray (elems : List Data)
  | genericStruct (type_name : List Char) (fields : List (List Char × Data))
  | genericPrimitive (type_name : List Char) (data : List Nat)

/-- `i32 as u32` two's-complement cast used for `m_Width` / `m_Height`. -/
def asU32 (v : Int) : Nat := (v % (4294967296 : Int)).toNat

/-! ## UTF-8 decoding

`String::from_utf8_lossy` and `std::str::from_utf8` are modelled by one
step function `utf8DecodeOne` that either decodes one scalar value
(returning the number of bytes consumed) or reports the number of bytes of
the maximal invalid subpart to skip, exactly following the checks of the
Rust standard library. -/

/-- Is `b` a UTF-8 continuation byte (`10xxxxxx`)? -/
def isCont (b : Nat) : Bool := 128 ≤ b && b < 192

/-- Decode one scalar from the front of the byte list.  `(some cp, k)`
decodes code point `cp` consuming `k` bytes; `(none, k)` marks an invalid
sequence of `k` bytes (to be replaced by one U+FFFD in lossy mode). -/
def utf8DecodeOne : List Nat → Option Nat × Nat
  | [] => (none, 1)
  | b :: rest =>
    if b < 128 then (some b, 1)
    else if b < 194 then (none, 1)
    else if b < 224 then
      match rest with
      | b1 :: _ => if isCont b1 then (some ((b - 192) * 64 + (b1 - 128)), 2) else (none, 1)
      | [] => (none, 1)
    else if b < 240 then
      match rest with
      | b1 :: rest1 =>
        if (if b = 224 then decide (160 ≤ b1) && decide (b1 < 192)
            else if b = 237 then decide (128 ≤ b1) && decide (b1 < 160)
            else isCont b1) then
          match rest1 with
          | b2 :: _ =>
            if isCont b2 then
              (some ((b - 224) * 4096 + (b1 - 128) * 64 + (b2 - 128)), 3)
            else (none, 2)
          | [] => (none, 2)
        else (none, 1)
      | [] => (none, 1)
    else if b < 245 then
      match rest with
      | b1 :: rest1 =>
        if (if b = 240 then decide (144 ≤ b1) && decide (b1 < 192)
            else if b = 244 then decide (128 ≤ b1) && decide (b1 < 144)
            else isCont b1) then
          match rest1 with
          | b2 :: rest2 =>
            if isCont b2 then
              match rest2 with
              | b3 :: _ =>
                if isCont b3 then
                  (some ((b - 240) * 262144 + (b1 - 128) * 4096 + (b2 - 128) * 64 + (b3 - 128)), 4)
                else (none, 3)
              | [] => (none, 3)
            else (none, 2)
          | [] => (none, 2)
        else (none, 1)
      | [] => (none, 1)
    else (none, 1)

/-- The Unicode replacement character U+FFFD. -/
def replacement : Char := Char.ofNat 65533

/-- Fuelled lossy decoding loop; one unit of fuel per decoded unit, each
step consumes at least one byte, so `fuel = length` always suffices. -/
def utf8LossyGo : Nat → List Nat → List Char
  | 0, _ => []
  | _, [] => []
  | fuel + 1, l =>
    match utf8DecodeOne l with
    | (some cp, k) => Char.ofNat cp :: utf8LossyGo fuel (l.drop k)
    | (none, k) => replacement :: utf8LossyGo fuel (l.drop k)

/-- `String::from_utf8_lossy`: total, replaces invalid sequences with U+FFFD. -/
def utf8Lossy (l : List Nat) : List Char := utf8LossyGo l.length l

/-- Fuelled validity loop for `std::str::from_utf8`. -/
def utf8ValidGo : Nat → List Nat → Bool
  | 0, l => l.isEmpty
  | _, [] => true
  | fuel + 1, l =>
    match utf8DecodeOne l with
    | (some _, k) => utf8ValidGo fuel (l.drop k)
    | (none, _) => false

/-- Does `std::str::from_utf8` accept these bytes? -/
def utf8Valid (l : List Nat) : Bool := utf8ValidGo l.length l

/-! ## The external collaborators and error model -/

/-- The two desktop block-compression sub-variants. -/
inductive DxtVariant where
  | dxt1
  | dxt5
deriving DecidableEq

/-- The four mobile block-compression sub-variants. -/
inductive EtcFormat where
  | etcRgb4
  | etc2Rgb
  | etc2Rgba1
  | etc2Rgba8
deriving DecidableEq

/-- The decode format tag carried alongside a deferred texture. -/
inductive DecodeFormat where
  | etc (f : EtcFormat)
  | dxt (v : DxtVariant)
deriving DecidableEq

/-- The container facade the resolution operation consults: its own name
and its named resources.  Modelled from the spec: the parser producing it
is an external collaborator (spec section 4.4 and 6). -/
structure Container where
  name : List Char
  resources : List (List Char × List Nat)

/-- The external collaborators, modelled from the spec (section 6): the
mobile block decoder consumes a fixed-size chunk per block and yields a
4 x 16-byte RGBA block; the desktop decoder yields an RGBA raster (as rows);
the image encoder yields encoded bytes or an error; the container parser
yields a container facade or a parse error. -/
structure Externals where
  etcBlockSize : EtcFormat → Nat
  etcBlock : EtcFormat → List Nat → (Fin 4 → Fin 16 → Nat)
  dxtDecode : Nat → Nat → DxtVariant → List Nat → Except String (List (List Nat))
  pngEncode : Nat → Nat → List Nat → Except String (List Nat)
  parse : List Nat → Except String Container

/-- A `JsValue` error object thrown by the source. -/
inductive JsErr where
  | error (msg : String)
  | typeError (msg : String)
deriving DecidableEq

/-- Outcome of a fallible source operation: a thrown `JsValue` error, or a
Rust panic (which in wasm traps and is reported to the immediate caller). -/
inductive Fault where
  | js (e : JsErr)
  | panic
deriving DecidableEq

instance {ε α : Type} [DecidableEq ε] [DecidableEq α] : DecidableEq (Except ε α) :=
  fun a b =>
    match a, b with
    | .ok x, .ok y =>
      match decEq x y with
      | isTrue h => isTrue (by rw [h])
      | isFalse h => isFalse (by intro hc; cases hc; exact h rfl)
    | .error x, .error y =>
      match decEq x y with
      | isTrue h => isTrue (by rw [h])
      | isFalse h => isFalse (by intro hc; cases hc; exact h rfl)
    | .ok _, .error _ => isFalse (by intro hc; cases hc)
    | .error _, .ok _ => isFalse (by intro hc; cases hc)

/-! ## Streaming descriptor and texture entity -/

/-- The streaming descriptor (`StreamingInfo` in the source). -/
structure StreamingInfo where
  path : List Char
  offset : Nat
  size : Nat
deriving DecidableEq

/-- Lookup of a field by name, as `fields.get` on the parser's field map. -/
def getField (fields : List (List Char × Data)) (k : String) : Option Data :=
  List.lookup (rstr k) fields

/-- `StreamingInfo::from_data`: strict shape check of a generic struct
tagged `StreamingInfo` with a string `path`, u32 `offset`, u32 `size`. -/
def StreamingInfo.from_data (d : Data) : Except Fault StreamingInfo :=
  match d with
  | .genericStruct type_name fields =>
    if type_name = rstr "StreamingInfo" then
      match List.lookup (rstr "path") fields with
      | some (.string s) =>
        match List.lookup (rstr "offset") fields with
        | some (.uint32 o) =>
          match List.lookup (rstr "size") fields with
          | some (.uint32 z) => .ok { path := utf8Lossy s, offset := o, size := z }
          | _ => .error (.js (.typeError "StreamingInfo type mismatch"))
        | _ => .error (.js (.typeError "StreamingInfo type mismatch"))
      | _ => .error (.js (.typeError "StreamingInfo type mismatch"))
    else .error (.js (.typeError "StreamingInfo type mismatch"))
  | _ => .error (.js (.typeError "StreamingInfo type mismatch"))

/-- The three-state image payload of a texture entity. -/
inductive ImageData where
  | loaded (data : List Nat)
  | streaming (format : DecodeFormat) (info : StreamingInfo)
  | unknown
deriving DecidableEq

/-- Is the payload in the deferred (streaming) state? -/
def ImageData.isStreaming : ImageData → Bool
  | .streaming _ _ => true
  | _ => false

/-- The texture entity. -/
structure Texture2D where
  name : List Char
  width : Nat
  height : Nat
  image_data : ImageData
deriving DecidableEq

/-! ## Mobile block decode (`Texture2D::read_etc`)

The source iterates 4 x 4 blocks; for each block it decodes a fixed-size
chunk from the stream and copies the four 16-byte block rows into the
output buffer through
`buf[4*x..].chunks_mut(scanline).rev().skip(y).take(4)`, writing
`target[..16]` of each selected chunk.  `writeChunk16` models one such
write, `writeBlock` models the placement of one block (returning `none`
where the Rust slice operations would panic), and `readEtcGo` runs the
block loop in row-major block order. -/

/-- `decode_single_block` (external, modelled from the spec): consumes a
fixed-size chunk from the stream, failing exactly on underrun; the decoded
pixels are given by the `Externals` oracle. -/
def decode_single_block (ext : Externals) (format : EtcFormat) (stream : List Nat) :
    Except Fault ((Fin 4 → Fin 16 → Nat) × List Nat) :=
  let n := ext.etcBlockSize format
  if n ≤ stream.length then
    .ok (ext.etcBlock format (stream.take n), stream.drop n)
  else
    .error (.js (.error "read error"))

/-- Overwrite `buf[pos..pos+16]` with the 16 bytes of one block row
(`target[..16].copy_from_slice(block_raw)`). -/
def writeChunk16 (buf : List Nat) (pos : Nat) (row : Fin 16 → Nat) : List Nat :=
  buf.take pos ++ List.ofFn row ++ buf.drop (pos + 16)

/-- The chunk indices selected by `.rev().skip(y).take(4)` out of `N`
scanline chunks. -/
def blockRowTargets (N y : Nat) : List Nat :=
  (((List.range N).reverse).drop y).take 4

/-- Perform the zipped row writes of one block.  `base` is the byte offset
of the sliced suffix (`4*x`), `s` the scanline, `l` the suffix length.
Each write first checks the length of the selected chunk
(`min s (l - c*s)`); a chunk shorter than 16 bytes makes the Rust
`target[..16]` panic, modelled as `none`. -/
def writePairs (buf : List Nat) (base s l : Nat) :
    List ((Fin 16 → Nat) × Nat) → Option (List Nat)
  | [] => some buf
  | (row, c) :: rest =>
    if min s (l - c * s) < 16 then none
    else writePairs (writeChunk16 buf (base + c * s) row) base s l rest

/-- Place one decoded block: slice the buffer at byte `4*x`, form scanline
chunks, reverse, skip `y`, take 4, and zip with the block rows. -/
def writeBlock (buf : List Nat) (s x y : Nat) (block : Fin 4 → Fin 16 → Nat) :
    Option (List Nat) :=
  if s = 0 then none
  else if buf.length < 4 * x then none
  else writePairs buf (4 * x) s (buf.length - 4 * x)
    ((List.ofFn block).zip
      (blockRowTargets ((buf.length - 4 * x + s - 1) / s) y))

/-- The block coordinates `(block_y, block_x)` in source iteration order:
left-to-right within each block row, block rows in increasing `block_y`. -/
def blockIndices (bh bw : Nat) : List (Nat × Nat) :=
  (List.range bh).flatMap fun yq => (List.range bw).map fun xq => (yq, xq)

/-- The block loop of `read_etc`: decode one chunk per block and place it. -/
def readEtcGo (ext : Externals) (format : EtcFormat) (scanline : Nat) :
    List (Nat × Nat) → List Nat → List Nat → Except Fault (List Nat × List Nat)
  | [], buf, stream => .ok (buf, stream)
  | (yq, xq) :: rest, buf, stream =>
    match decode_single_block ext format stream with
    | .error e => .error e
    | .ok (block, stream') =>
      match writeBlock buf scanline (4 * xq) (4 * yq) block with
      | none => .error .panic
      | some buf' => readEtcGo ext format scanline rest buf' stream'

/-- `Texture2D::read_etc`.  Returns the decoded RGBA raster together with
the unread remainder of the stream. -/
def Texture2D.read_etc (ext : Externals) (width height : Nat) (format : EtcFormat)
    (image_data : List Nat) : Except Fault (List Nat × List Nat) :=
  let block_width := (width + 3) / 4
  let block_height := (height + 3) / 4
  let scanline := width * 4
  readEtcGo ext format scanline (blockIndices block_height block_width)
    (List.replicate (scanline * height) 0) image_data

/-- `Texture2D::read_dxt`: delegate to the external desktop decoder, then
flip the raster vertically (`flipv`), i.e. reverse the row order. -/
def Texture2D.read_dxt (ext : Externals) (width height : Nat) (variant : DxtVariant)
    (image_data : List Nat) : Except Fault (List Nat) :=
  match ext.dxtDecode width height variant image_data with
  | .error e => .error (.js (.error ("failed to decode: " ++ e)))
  | .ok rows => .ok rows.reverse.flatten

/-- `Texture2D::read`: decode by family, then encode the RGBA raster with
the external image encoder. -/
def Texture2D.read (ext : Externals) (width height : Nat) (format : DecodeFormat)
    (image_data : List Nat) : Except Fault (List Nat) :=
  match
    (match format with
     | .etc f => (Texture2D.read_etc ext width height f image_data).map Prod.fst
     | .dxt v => Texture2D.read_dxt ext width height v image_data) with
  | .error e => .error e
  | .ok raw =>
    match ext.pngEncode width height raw with
    | .ok out => .ok out
    | .error e => .error (.js (.error e))

/-- `Texture2D::load`: decode immediately and construct a resolved entity. -/
def Texture2D.load (ext : Externals) (name : List Char) (width height : Nat)
    (format : DecodeFormat) (image_data : List Nat) : Except Fault Texture2D :=
  match Texture2D.read ext width height format image_data with
  | .error e => .error e
  | .ok data => .ok { name, width, height, image_data := .loaded data }

/-- `Texture2D::defer`: construct a deferred entity. -/
def Texture2D.defer (name : List Char) (width height : Nat)
    (format : DecodeFormat) (streaming_info : StreamingInfo) : Texture2D :=
  { name, width, height, image_data := .streaming format streaming_info }

/-- `Texture2D::unknown`: construct an unrecognized-format entity. -/
def Texture2D.unknown (name : List Char) (width height : Nat) : Texture2D :=
  { name, width, height, image_data := .unknown }

/-- Rust `str::split` on one character: the list of separated segments
(always non-empty, empty segments preserved). -/
def splitOnChar (c : Char) : List Char → List (List Char)
  | [] => [[]]
  | a :: rest =>
    if a = c then [] :: splitOnChar c rest
    else
      match splitOnChar c rest with
      | s :: tail => (a :: s) :: tail
      | [] => [[a]]

/-- `Texture2D::try_resolve`.  The first component is the returned
`Result`, the second the entity after the call (the source mutates
`self.image_data` exactly on the success path). -/
def Texture2D.try_resolve (ext : Externals) (t : Texture2D) (input : List Nat) :
    Except Fault Unit × Texture2D :=
  match ext.parse input with
  | .error e => (.error (.js (.error ("parse failed: " ++ e))), t)
  | .ok fs =>
    match t.image_data with
    | .streaming format streaming_info =>
      if (rstr "archive:/").isPrefixOf streaming_info.path then
        match splitOnChar '/' (streaming_info.path.drop 9) with
        | bundle_name :: resource_name :: _ =>
          if fs.name = bundle_name then
            match List.lookup resource_name fs.resources with
            | some resource =>
              if streaming_info.offset + streaming_info.size ≤ resource.length then
                match Texture2D.read ext t.width t.height format
                    ((resource.drop streaming_info.offset).take streaming_info.size) with
                | .ok image_data => (.ok (), { t with image_data := .loaded image_data })
                | .error e => (.error e, t)
              else (.error .panic, t)
            | none => (.ok (), t)
          else (.ok (), t)
        | _ => (.ok (), t)
      else (.ok (), t)
    | _ => (.ok (), t)

/-! ## The projectors -/

/-- The projected host value.  `handle` is a `UnityObject` wrapper around
the (cloned) data; its deferred `data()` accessor is `convert_data`. -/
inductive JsValue where
  | bool (b : Bool)
  | num (v : Float)
  | str (s : List Char)
  | bytes (b : List Nat)
  | arr (elems : List JsValue)
  | obj (entries : List (List Char × JsValue))
  | handle (d : Data)
  | texture (t : Texture2D)

/-- `convert_shallow`: scalar rules inline, any other shape becomes a
wrapped handle. -/
def convert_shallow (d : Data) : JsValue :=
  match d with
  | .bool b => .bool b
  | .uint8 v => .num (Float.ofNat v)
  | .uint16 v => .num (Float.ofNat v)
  | .uint32 v => .num (Float.ofNat v)
  | .uint64 v => .num (Float.ofNat v)
  | .sint8 v => .num (Float.ofInt v)
  | .sint16 v => .num (Float.ofInt v)
  | .sint32 v => .num (Float.ofInt v)
  | .sint64 v => .num (Float.ofInt v)
  | .float v => .num v
  | .double v => .num v
  | .string s => if utf8Valid s then .str (utf8Lossy s) else .bytes s
  | v => .handle v

/-- The format code mapping of `convert_data` (the six recognized
`m_TextureFormat` codes). -/
def formatOf : Int → Option DecodeFormat
  | 34 => some (.etc .etcRgb4)
  | 45 => some (.etc .etc2Rgb)
  | 46 => some (.etc .etc2Rgba1)
  | 47 => some (.etc .etc2Rgba8)
  | 10 => some (.dxt .dxt1)
  | 12 => some (.dxt .dxt5)
  | _ => none

/-- `convert_data`: the deep projector, with the `Texture2D` carve-out. -/
def convert_data (ext : Externals) (d : Data) : Except Fault JsValue :=
  match d with
  | .genericPrimitive _ data => .ok (.bytes data)
  | .genericStruct type_name fields =>
    if type_name = rstr "Texture2D" then
      match List.lookup (rstr "m_Name") fields with
      | some (.string s) =>
        let name := utf8Lossy s
        match List.lookup (rstr "m_Width") fields with
        | some (.sint32 w) =>
          let width := asU32 w
          match List.lookup (rstr "m_Height") fields with
          | some (.sint32 h) =>
            let height := asU32 h
            match List.lookup (rstr "image data") fields with
            | some (.uint8Array image_data) =>
              match List.lookup (rstr "m_TextureFormat") fields with
              | some (.sint32 code) =>
                match formatOf code with
                | some format =>
                  match List.lookup (rstr "m_StreamData") fields with
                  | some sd =>
                    match StreamingInfo.from_data sd with
                    | .ok streaming_info =>
                      if streaming_info.path = [] then
                        match Texture2D.load ext name width height format image_data with
                        | .ok t => .ok (.texture t)
                        | .error e => .error e
                      else
                        .ok (.texture (Texture2D.defer name width height format streaming_info))
                    | .error e => .error e
                  | none => .error (.js (.error "m_StreamData not found"))
                | none => .ok (.texture (Texture2D.unknown name width height))
              | some _ => .error (.js (.error "m_TextureFormat type mismatch"))
              | none => .error (.js (.error "m_TextureFormat not found"))
            | some _ => .error (.js (.error "image data type mismatch"))
            | none => .error (.js (.error "image data not found"))
          | some _ => .error (.js (.error "m_Height type mismatch"))
          | none => .error (.js (.error "m_Height not found"))
        | some _ => .error (.js (.error "m_Width type mismatch"))
        | none => .error (.js (.error "m_Width not found"))
      | some _ => .error (.js (.error "m_Name type mismatch"))
      | none => .error (.js (.error "m_Name not found"))
    else
      .ok (.obj (fields.map fun kv => (kv.1, convert_shallow kv.2)))
  | .genericArray arr => .ok (.arr (arr.map convert_shallow))
  | .bool b => .ok (.bool b)
  | .uint8 v => .ok (.num (Float.ofNat v))
  | .uint16 v => .ok (.num (Float.ofNat v))
  | .uint32 v => .ok (.num (Float.ofNat v))
  | .uint64 v => .ok (.num (Float.ofNat v))
  | .sint8 v => .ok (.num (Float.ofInt v))
  | .sint16 v => .ok (.num (Float.ofInt v))
  | .sint32 v => .ok (.num (Float.ofInt v))
  | .sint64 v => .ok (.num (Float.ofInt v))
  | .float v => .ok (.num v)
  | .double v => .ok (.num v)
  | .pair fst snd => .ok (.arr [.handle fst, .handle snd])
  | .uint8Array s => .ok (.bytes s)
  | .string s => .ok (if utf8Valid s then .str (utf8Lossy s) else .bytes s)

/-! ## Concrete instantiations of the external collaborators

Used to evaluate the model at concrete inputs: a trivial block decoder
(all-zero pixels), an identity image encoder, and small containers. -/

/-- Externals with no container: every decode is all-zero pixels, the
encoder is the identity, parsing always fails. -/
def extTriv : Externals where
  etcBlockSize := fun _ => 8
  etcBlock := fun _ _ _ _ => 0
  dxtDecode := fun _ _ _ _ => .error "no dxt"
  pngEncode := fun _ _ raw => .ok raw
  parse := fun _ => .error "invalid"

/-- Externals whose parser yields a container named `A` holding one
resource `b` of eight zero bytes. -/
def extAb : Externals where
  etcBlockSize := fun _ => 8
  etcBlock := fun _ _ _ _ => 0
  dxtDecode := fun _ _ _ _ => .error "no dxt"
  pngEncode := fun _ _ raw => .ok raw
  parse := fun _ => .ok { name := rstr "A", resources := [(rstr "b", List.replicate 8 0)] }

/-- Externals whose parser yields a container named `A` holding one
resource `r` of 120 zero bytes. -/
def extA120 : Externals where
  etcBlockSize := fun _ => 8
  etcBlock := fun _ _ _ _ => 0
  dxtDecode := fun _ _ _ _ => .error "no dxt"
  pngEncode := fun _ _ raw => .ok raw
  parse := fun _ => .ok { name := rstr "A", resources := [(rstr "r", List.replicate 120 0)] }

/-- Externals whose parser yields a container named `A` holding one empty
resource `r`. -/
def extAempty : Externals where
  etcBlockSize := fun _ => 8
  etcBlock := fun _ _ _ _ => 0
  dxtDecode := fun _ _ _ _ => .error "no dxt"
  pngEncode := fun _ _ raw => .ok raw
  parse := fun _ => .ok { name := rstr "A", resources := [(rstr "r", [])] }

/-- A well-shaped `Texture2D` struct: 2 x 1 pixels, ETC format code 34,
empty streaming path, one 8-byte block of image data.  Projecting it makes
`read_etc` slice a 16-byte block row into an 8-byte scanline chunk. -/
def texUnaligned : Data :=
  .genericStruct (rstr "Texture2D")
    [ (rstr "m_Name", .string []),
      (rstr "m_Width", .sint32 2),
      (rstr "m_Height", .sint32 1),
      (rstr "image data", .uint8Array (List.replicate 8 0)),
      (rstr "m_TextureFormat", .sint32 34),
      (rstr "m_StreamData", .genericStruct (rstr "StreamingInfo")
        [ (rstr "path", .string []), (rstr "offset", .uint32 0),
          (rstr "size", .uint32 0) ]) ]

/-- Field list of a `Texture2D` struct with an unrecognized format code 99
and no `m_StreamData` field at all. -/
def texNoStream99Fields : List (List Char × Data) :=
  [ (rstr "m_Name", .string []),
    (rstr "m_Width", .sint32 1),
    (rstr "m_Height", .sint32 1),
    (rstr "image data", .uint8Array []),
    (rstr "m_TextureFormat", .sint32 99) ]

/-- A well-shaped `Texture2D` struct fixture: 4 x 4 pixels, format 34,
empty streaming path, one 8-byte block. -/
def texAligned : List (List Char × Data) :=
  [ (rstr "m_Name", .string [104, 105]),
    (rstr "m_Width", .sint32 4),
    (rstr "m_Height", .sint32 4),
    (rstr "image data", .uint8Array (List.replicate 8 0)),
    (rstr "m_TextureFormat", .sint32 34),
    (rstr "m_StreamData", .genericStruct (rstr "StreamingInfo")
      [ (rstr "path", .string []), (rstr "offset", .uint32 0),
        (rstr "size", .uint32 0) ]) ]

/-- A deferred 4 x 4 entity whose streaming path has two `/` separators
after the `archive:/` head. -/
def texDeferAbc : Texture2D :=
  { name := rstr "tex", width := 4, height := 4,
    image_data := .streaming (.etc .etcRgb4)
      { path := rstr "archive:/A/b/c", offset := 0, size := 8 } }

/-- A deferred 4 x 4 entity whose streaming descriptor slices bytes
100..150 out of resource `r`. -/
def texDeferRange : Texture2D :=
  { name := rstr "tex", width := 4, height := 4,
    image_data := .streaming (.etc .etcRgb4)
      { path := rstr "archive:/A/r", offset := 100, size := 50 } }

/-- A deferred 4 x 4 entity pointing at resource `r` with an empty slice,
so decoding underruns on the first block. -/
def texDeferShort : Texture2D :=
  { name := rstr "tex", width := 4, height := 4,
    image_data := .streaming (.etc .etcRgb4)
      { path := rstr "archive:/A/r", offset := 0, size := 0 } }

/-- A deferred entity whose streaming path names bundle `B`, not `A`. -/
def texDeferBx : Texture2D :=
  { name := rstr "tex", width := 4, height := 4,
    image_data := .streaming (.etc .etcRgb4)
      { path := rstr "archive:/B/x", offset := 0, size := 0 } }

/-- A resolved 1 x 1 entity. -/
def texLoaded : Texture2D :=
  { name := rstr "t", width := 1, height := 1, image_data := .loaded [] }

/-! ## Helper lemmas for the mobile block decode -/

theorem euclid_unique {s A B A' B' : Nat} (hs : 0 < s) (hB : B < s) (hB' : B' < s)
    (h : A * s + B = A' * s + B') : A = A' ∧ B = B' := by
  have h1 : (A * s + B) / s = A := by
    rw [Nat.mul_comm A s, Nat.mul_add_div hs, Nat.div_eq_of_lt hB]; omega
  have h2 : (A' * s + B') / s = A' := by
    rw [Nat.mul_comm A' s, Nat.mul_add_div hs, Nat.div_eq_of_lt hB']; omega
  have hA : A = A' := by rw [← h1, ← h2, h]
  subst hA
  exact ⟨rfl, by omega⟩

theorem writeChunk16_length (buf : List Nat) (pos : Nat) (row : Fin 16 → Nat)
    (hle : pos + 16 ≤ buf.length) : (writeChunk16 buf pos row).length = buf.length := by
  simp only [writeChunk16, List.length_append, List.length_take, List.length_drop,
    List.length_ofFn]
  omega

theorem writeChunk16_getElem (buf : List Nat) (pos : Nat) (row : Fin 16 → Nat)
    (hle : pos + 16 ≤ buf.length) (p : Nat) :
    (writeChunk16 buf pos row)[p]? =
      if h : pos ≤ p ∧ p < pos + 16 then some (row ⟨p - pos, by omega⟩)
      else buf[p]? := by
  have ht : (List.take pos buf).length = pos := by
    simp only [List.length_take]; omega
  have hto : (List.take pos buf ++ List.ofFn row).length = pos + 16 := by
    simp only [List.length_append, List.length_ofFn, ht]
  unfold writeChunk16
  by_cases h1 : p < pos
  · rw [List.getElem?_append_left (by omega : p < (List.take pos buf ++ List.ofFn row).length),
      List.getElem?_append_left (by omega : p < (List.take pos buf).length),
      List.getElem?_take, if_pos h1, dif_neg (by omega)]
  · by_cases h2 : p < pos + 16
    · rw [List.getElem?_append_left (by omega : p < (List.take pos buf ++ List.ofFn row).length),
        List.getElem?_append_right (by omega : (List.take pos buf).length ≤ p),
        ht, List.getElem?_ofFn, dif_pos ⟨by omega, h2⟩]
      unfold List.ofFnNthVal
      rw [dif_pos (by omega)]
    · rw [List.getElem?_append_right (by omega : (List.take pos buf ++ List.ofFn row).length ≤ p),
        hto, List.getElem?_drop, dif_neg (by omega)]
      congr 1
      omega

theorem interval_disjoint {s c c' base j p : Nat} (hs : 16 ≤ s) (hne : c ≠ c')
    (hj : j < 16) (hp : p = base + c * s + j) :
    ¬ (base + c' * s ≤ p ∧ p < base + c' * s + 16) := by
  rcases Nat.lt_or_ge c c' with hlt | hge
  · have h1 : (c + 1) * s ≤ c' * s := Nat.mul_le_mul_right s hlt
    rw [Nat.succ_mul] at h1
    omega
  · have hlt' : c' < c := by omega
    have h1 : (c' + 1) * s ≤ c * s := Nat.mul_le_mul_right s hlt'
    rw [Nat.succ_mul] at h1
    omega

theorem writePairs_spec (base s l : Nat) :
    ∀ (prs : List ((Fin 16 → Nat) × Nat)) (buf : List Nat),
    buf.length = base + l →
    (∀ pr ∈ prs, 16 ≤ min s (l - pr.2 * s)) →
    List.Pairwise (fun a b => a.2 ≠ b.2) prs →
    ∃ buf', writePairs buf base s l prs = some buf' ∧
      buf'.length = buf.length ∧
      (∀ pr ∈ prs, ∀ j : Fin 16, buf'[base + pr.2 * s + j.1]? = some (pr.1 j)) ∧
      (∀ p : Nat, (∀ pr ∈ prs, ¬ (base + pr.2 * s ≤ p ∧ p < base + pr.2 * s + 16)) →
        buf'[p]? = buf[p]?) := by
  intro prs
  induction prs with
  | nil =>
    intro buf hlen _ _
    exact ⟨buf, rfl, rfl, by simp, fun _ _ => rfl⟩
  | cons hd rest ih =>
    intro buf hlen hall hpw
    obtain ⟨row, c⟩ := hd
    have hc : 16 ≤ min s (l - c * s) := hall (row, c) (List.mem_cons_self _ _)
    have hs : 16 ≤ s := le_trans hc (Nat.min_le_left _ _)
    have hcl : c * s + 16 ≤ l := by
      have := Nat.min_le_right s (l - c * s)
      omega
    have hpos : (base + c * s) + 16 ≤ buf.length := by omega
    have hlen1 : (writeChunk16 buf (base + c * s) row).length = buf.length :=
      writeChunk16_length _ _ _ hpos
    obtain ⟨buf', heq, hlen', hmem, hpres⟩ :=
      ih (writeChunk16 buf (base + c * s) row) (by omega)
        (fun pr hpr => hall pr (List.mem_cons_of_mem _ hpr))
        (List.Pairwise.of_cons hpw)
    have hhead : ∀ b ∈ rest, c ≠ b.2 := fun b hb => (List.pairwise_cons.mp hpw).1 b hb
    refine ⟨buf', ?_, by omega, ?_, ?_⟩
    · show writePairs buf base s l ((row, c) :: rest) = some buf'
      unfold writePairs
      rw [if_neg (by omega)]
      exact heq
    · intro pr hpr j
      rcases List.mem_cons.mp hpr with heq' | hmem'
      · subst heq'
        have hstep : buf'[base + c * s + j.1]? =
            (writeChunk16 buf (base + c * s) row)[base + c * s + j.1]? := by
          apply hpres
          intro pr' hpr'
          exact interval_disjoint hs (fun hcc => hhead pr' hpr' hcc) j.isLt rfl
        rw [hstep, writeChunk16_getElem _ _ _ hpos, dif_pos ⟨by omega, by omega⟩]
        congr 1
        apply congrArg
        apply Fin.ext
        simp
      · exact hmem pr hmem' j
    · intro p hp
      have h1 : buf'[p]? = (writeChunk16 buf (base + c * s) row)[p]? :=
        hpres p (fun pr hpr => hp pr (List.mem_cons_of_mem _ hpr))
      rw [h1, writeChunk16_getElem _ _ _ hpos,
        dif_neg (hp (row, c) (List.mem_cons_self _ _))]

theorem blockRowTargets_length (N y : Nat) :
    (blockRowTargets N y).length = min 4 (N - y) := by
  simp [blockRowTargets, List.length_take, List.length_drop, List.length_reverse,
    List.length_range]

theorem blockRowTargets_getElem (N y i : Nat) :
    (blockRowTargets N y)[i]? =
      if i < 4 ∧ y + i < N then some (N - 1 - (y + i)) else none := by
  unfold blockRowTargets
  rw [List.getElem?_take]
  by_cases h4 : i < 4
  · rw [if_pos h4, List.getElem?_drop]
    by_cases hN : y + i < N
    · rw [List.getElem?_reverse (by simpa using hN), if_pos ⟨h4, hN⟩]
      rw [List.length_range, List.getElem?_range (by omega)]
    · rw [List.getElem?_eq_none (by simpa using Nat.le_of_not_lt hN), if_neg (by omega)]
  · rw [if_neg h4, if_neg (by omega)]

theorem chunkCount {s h d : Nat} (hs : 0 < s) (hd : d < s) (hh : 0 < h) :
    (s * h - d + s - 1) / s = h := by
  have h1 : s ≤ s * h := Nat.le_mul_of_pos_right s hh
  have h2 : s * h - d + s - 1 = s * h + (s - 1 - d) := by omega
  rw [h2, Nat.mul_add_div hs, Nat.div_eq_of_lt (by omega)]; omega

/-- Positions written by the block at block coordinates `(yq, xq)` in an
aligned raster of width `4*m` and height `h`. -/

def covered (m h yq xq p : Nat) : Prop :=
  ∃ r : Fin 4, ∃ j : Fin 16, 4 * yq + r.1 < h ∧
    p = (h - 1 - 4 * yq - r.1) * (16 * m) + 16 * xq + j.1

theorem zipPrs_getElem (block : Fin 4 → Fin 16 → Nat) (h y i : Nat) :
    ((List.ofFn block).zip (blockRowTargets h y))[i]? =
      if hi : i < 4 ∧ y + i < h then some (block ⟨i, hi.1⟩, h - 1 - (y + i))
      else none := by
  rw [List.zip_eq_zipWith, List.getElem?_zipWith, List.getElem?_ofFn,
    blockRowTargets_getElem]
  unfold List.ofFnNthVal
  by_cases h4 : i < 4 <;> by_cases hN : y + i < h
  · rw [dif_pos h4, if_pos ⟨h4, hN⟩, dif_pos ⟨h4, hN⟩]
  · rw [dif_pos h4, if_neg (by omega), dif_neg (by omega)]
  · rw [dif_neg h4, if_neg (by omega), dif_neg (by omega)]
  · rw [dif_neg h4, if_neg (by omega), dif_neg (by omega)]

theorem zipPrs_length (block : Fin 4 → Fin 16 → Nat) (h y : Nat) :
    ((List.ofFn block).zip (blockRowTargets h y)).length = min 4 (h - y) := by
  rw [List.length_zip, List.length_ofFn, blockRowTargets_length]
  omega

theorem writeBlock_spec {m h yq xq : Nat} (buf : List Nat) (block : Fin 4 → Fin 16 → Nat)
    (hm : 0 < m) (hbuf : buf.length = 16 * m * h) (hx : xq < m) (hy : 4 * yq < h) :
    ∃ buf', writeBlock buf (16 * m) (4 * xq) (4 * yq) block = some buf' ∧
      buf'.length = buf.length ∧
      (∀ (r : Fin 4) (j : Fin 16), 4 * yq + r.1 < h →
        buf'[(h - 1 - 4 * yq - r.1) * (16 * m) + 16 * xq + j.1]? = some (block r j)) ∧
      (∀ p, ¬ covered m h yq xq p → buf'[p]? = buf[p]?) := by
  have h0 : 0 < h := by omega
  have hsh : 16 * m ≤ 16 * m * h := Nat.le_mul_of_pos_right _ h0
  have hguard : ¬ (buf.length < 4 * (4 * xq)) := by omega
  have hl : buf.length - 4 * (4 * xq) = 16 * m * h - 16 * xq := by omega
  have hN : (buf.length - 4 * (4 * xq) + 16 * m - 1) / (16 * m) = h := by
    rw [show buf.length - 4 * (4 * xq) = 16 * m * h - 16 * xq by omega]
    exact chunkCount (by omega) (by omega) h0
  have hmulsum : (h - 1) * (16 * m) + 16 * m = 16 * m * h := by
    rw [← Nat.succ_mul, Nat.succ_eq_add_one, show h - 1 + 1 = h by omega]
    ring
  have hallmem : ∀ pr ∈ (List.ofFn block).zip (blockRowTargets h (4 * yq)),
      ∃ i, ∃ hi : i < 4, 4 * yq + i < h ∧
        pr = (block ⟨i, hi⟩, h - 1 - (4 * yq + i)) := by
    intro pr hpr
    obtain ⟨i, hi⟩ := List.mem_iff_getElem?.mp hpr
    rw [zipPrs_getElem] at hi
    by_cases hcond : i < 4 ∧ 4 * yq + i < h
    · rw [dif_pos hcond] at hi
      exact ⟨i, hcond.1, hcond.2, (Option.some.inj hi).symm⟩
    · rw [dif_neg hcond] at hi
      exact absurd hi (by simp)
  have hall : ∀ pr ∈ (List.ofFn block).zip (blockRowTargets h (4 * yq)),
      16 ≤ min (16 * m) (buf.length - 4 * (4 * xq) - pr.2 * (16 * m)) := by
    intro pr hpr
    obtain ⟨i, hi4, hih, hpr'⟩ := hallmem pr hpr
    subst hpr'
    have hcmul : (h - 1 - (4 * yq + i)) * (16 * m) ≤ (h - 1) * (16 * m) :=
      Nat.mul_le_mul_right _ (by omega)
    show 16 ≤ min (16 * m) (buf.length - 4 * (4 * xq) - (h - 1 - (4 * yq + i)) * (16 * m))
    omega
  have hpw : List.Pairwise (fun a b => a.2 ≠ b.2)
      ((List.ofFn block).zip (blockRowTargets h (4 * yq))) := by
    rw [List.pairwise_iff_getElem]
    intro i j hi hj hij
    have hlen := zipPrs_length block h (4 * yq)
    have hi' : i < 4 ∧ 4 * yq + i < h := by omega
    have hj' : j < 4 ∧ 4 * yq + j < h := by omega
    have h1 := List.getElem?_eq_getElem hi
    have h2 := List.getElem?_eq_getElem hj
    rw [zipPrs_getElem, dif_pos hi'] at h1
    rw [zipPrs_getElem, dif_pos hj'] at h2
    have e1 := Option.some.inj h1
    have e2 := Option.some.inj h2
    rw [← e1, ← e2]
    show h - 1 - (4 * yq + i) ≠ h - 1 - (4 * yq + j)
    omega
  obtain ⟨buf', heq, hlen', hmemw, hpresw⟩ :=
    writePairs_spec (4 * (4 * xq)) (16 * m) (buf.length - 4 * (4 * xq))
      ((List.ofFn block).zip (blockRowTargets h (4 * yq))) buf
      (by omega) hall hpw
  refine ⟨buf', ?_, hlen', ?_, ?_⟩
  · unfold writeBlock
    rw [if_neg (by omega : ¬ (16 * m = 0)), if_neg hguard, hN]
    exact heq
  · intro r j hrow
    have hmem : (block r, h - 1 - (4 * yq + r.1)) ∈
        (List.ofFn block).zip (blockRowTargets h (4 * yq)) := by
      rw [List.mem_iff_getElem?]
      refine ⟨r.1, ?_⟩
      rw [zipPrs_getElem, dif_pos ⟨r.isLt, hrow⟩]
    have hthis : buf'[4 * (4 * xq) + (h - 1 - (4 * yq + r.1)) * (16 * m) + j.1]? =
        some (block r j) := hmemw _ hmem j
    have hpos : 4 * (4 * xq) + (h - 1 - (4 * yq + r.1)) * (16 * m) + j.1 =
        (h - 1 - 4 * yq - r.1) * (16 * m) + 16 * xq + j.1 := by
      rw [show h - 1 - (4 * yq + r.1) = h - 1 - 4 * yq - r.1 by omega]
      omega
    rw [hpos] at hthis
    exact hthis
  · intro p hnc
    apply hpresw
    intro pr hpr hint
    obtain ⟨i, hi4, hih, hpr'⟩ := hallmem pr hpr
    subst hpr'
    have hint' : 4 * (4 * xq) + (h - 1 - (4 * yq + i)) * (16 * m) ≤ p ∧
        p < 4 * (4 * xq) + (h - 1 - (4 * yq + i)) * (16 * m) + 16 := hint
    clear hint
    apply hnc
    have hj0 : p - (4 * (4 * xq) + (h - 1 - (4 * yq + i)) * (16 * m)) < 16 := by
      omega
    refine ⟨⟨i, hi4⟩, ⟨p - (4 * (4 * xq) + (h - 1 - (4 * yq + i)) * (16 * m)), hj0⟩,
      hih, ?_⟩
    show p = (h - 1 - 4 * yq - i) * (16 * m) + 16 * xq +
      (p - (4 * (4 * xq) + (h - 1 - (4 * yq + i)) * (16 * m)))
    rw [show h - 1 - 4 * yq - i = h - 1 - (4 * yq + i) by omega]
    omega

theorem covered_disjoint {m h yq xq yq' xq' p : Nat} (hx : xq < m) (hx' : xq' < m)
    (hne : (yq, xq) ≠ (yq', xq')) (hc : covered m h yq xq p) :
    ¬ covered m h yq' xq' p := by
  rintro ⟨r', j', hrow', hp'⟩
  obtain ⟨r, j, hrow, hp⟩ := hc
  have hp2 : p = (h - 1 - 4 * yq - r.1) * (16 * m) + (16 * xq + j.1) := by omega
  have hp2' : p = (h - 1 - 4 * yq' - r'.1) * (16 * m) + (16 * xq' + j'.1) := by omega
  have heq : (h - 1 - 4 * yq - r.1) * (16 * m) + (16 * xq + j.1) =
      (h - 1 - 4 * yq' - r'.1) * (16 * m) + (16 * xq' + j'.1) := by
    rw [← hp2, hp2']
  obtain ⟨hA, hB⟩ := euclid_unique (by omega) (by omega) (by omega) heq
  have hxx : xq = xq' := by omega
  have hyy : yq = yq' := by omega
  exact hne (by rw [hxx, hyy])

theorem readEtcGo_cons_err {ext : Externals} {fmt : EtcFormat} {s : Nat}
    {yq xq : Nat} {rest : List (Nat × Nat)} {buf stream : List Nat} {e : Fault}
    (hdec : decode_single_block ext fmt stream = .error e) :
    readEtcGo ext fmt s ((yq, xq) :: rest) buf stream = .error e := by
  simp only [readEtcGo, hdec]

theorem readEtcGo_cons_ok {ext : Externals} {fmt : EtcFormat} {s : Nat}
    {yq xq : Nat} (rest : List (Nat × Nat)) {buf stream stream' buf1 : List Nat}
    {block : Fin 4 → Fin 16 → Nat}
    (hdec : decode_single_block ext fmt stream = .ok (block, stream'))
    (hwb : writeBlock buf s (4 * xq) (4 * yq) block = some buf1) :
    readEtcGo ext fmt s ((yq, xq) :: rest) buf stream =
      readEtcGo ext fmt s rest buf1 stream' := by
  simp only [readEtcGo, hdec, hwb]

theorem readEtcGo_spec (ext : Externals) (fmt : EtcFormat) (m h : Nat) (hm : 0 < m) :
    ∀ (L : List (Nat × Nat)) (buf stream : List Nat),
    buf.length = 16 * m * h →
    (∀ q ∈ L, q.2 < m ∧ 4 * q.1 < h) →
    List.Pairwise (· ≠ ·) L →
    (stream.length < L.length * ext.etcBlockSize fmt →
      readEtcGo ext fmt (16 * m) L buf stream = .error (.js (.error "read error")))
    ∧ (L.length * ext.etcBlockSize fmt ≤ stream.length →
      ∃ buf', readEtcGo ext fmt (16 * m) L buf stream
          = .ok (buf', stream.drop (L.length * ext.etcBlockSize fmt))
        ∧ buf'.length = buf.length
        ∧ (∀ k (hk : k < L.length) (r : Fin 4) (j : Fin 16),
            4 * (L.get ⟨k, hk⟩).1 + r.1 < h →
            buf'[(h - 1 - 4 * (L.get ⟨k, hk⟩).1 - r.1) * (16 * m)
                + 16 * (L.get ⟨k, hk⟩).2 + j.1]?
              = some (ext.etcBlock fmt
                  ((stream.drop (k * ext.etcBlockSize fmt)).take
                    (ext.etcBlockSize fmt)) r j))
        ∧ (∀ p, (∀ q ∈ L, ¬ covered m h q.1 q.2 p) → buf'[p]? = buf[p]?)) := by
  intro L
  induction L with
  | nil =>
    intro buf stream hbuf _ _
    constructor
    · intro hlt
      simp only [List.length_nil, Nat.zero_mul] at hlt
      omega
    · intro _
      refine ⟨buf, ?_, rfl, ?_, fun _ _ => rfl⟩
      · simp [readEtcGo]
      · intro k hk
        simp only [List.length_nil] at hk
        omega
  | cons q rest ih =>
    intro buf stream hbuf hvalid hpw
    obtain ⟨yq, xq⟩ := q
    have hq := hvalid (yq, xq) (List.mem_cons_self _ _)
    have hxq : xq < m := hq.1
    have hyq : 4 * yq < h := hq.2
    have hsucc : ((yq, xq) :: rest).length * ext.etcBlockSize fmt =
        rest.length * ext.etcBlockSize fmt + ext.etcBlockSize fmt := by
      rw [List.length_cons, Nat.succ_mul]
    by_cases hbs : ext.etcBlockSize fmt ≤ stream.length
    · -- the head block can be decoded
      have hdec : decode_single_block ext fmt stream =
          .ok (ext.etcBlock fmt (stream.take (ext.etcBlockSize fmt)),
               stream.drop (ext.etcBlockSize fmt)) := by
        unfold decode_single_block
        rw [if_pos hbs]
      obtain ⟨buf1, hwb, hlen1, hwmem, hwpres⟩ :=
        writeBlock_spec buf (ext.etcBlock fmt (stream.take (ext.etcBlockSize fmt)))
          hm hbuf hxq hyq
      have hstep := readEtcGo_cons_ok rest hdec hwb
      have hlen1' : buf1.length = 16 * m * h := by omega
      obtain ⟨ihu, ihs⟩ := ih buf1 (stream.drop (ext.etcBlockSize fmt)) hlen1'
        (fun q' hq' => hvalid q' (List.mem_cons_of_mem _ hq'))
        (List.Pairwise.of_cons hpw)
      have hdlen : (stream.drop (ext.etcBlockSize fmt)).length =
          stream.length - ext.etcBlockSize fmt := List.length_drop _ _
      constructor
      · intro hlt
        rw [hstep]
        apply ihu
        omega
      · intro hle
        obtain ⟨buf', heq', hlen', hplace, hpres'⟩ := ihs (by omega)
        have hdd : (stream.drop (ext.etcBlockSize fmt)).drop
            (rest.length * ext.etcBlockSize fmt) =
            stream.drop (((yq, xq) :: rest).length * ext.etcBlockSize fmt) := by
          rw [List.drop_drop, hsucc]
          congr 1
          omega
        refine ⟨buf', ?_, by omega, ?_, ?_⟩
        · rw [hstep, heq', hdd]
        · intro k hk r j hrow
          match k with
          | 0 =>
            have hget0 : (((yq, xq) :: rest).get ⟨0, hk⟩) = (yq, xq) := rfl
            rw [hget0] at hrow ⊢
            have hcov : covered m h yq xq
                ((h - 1 - 4 * yq - r.1) * (16 * m) + 16 * xq + j.1) :=
              ⟨r, j, hrow, rfl⟩
            have hstay : buf'[(h - 1 - 4 * yq - r.1) * (16 * m) + 16 * xq + j.1]? =
                buf1[(h - 1 - 4 * yq - r.1) * (16 * m) + 16 * xq + j.1]? := by
              apply hpres'
              intro q' hq'
              obtain ⟨yq', xq'⟩ := q'
              exact covered_disjoint hxq (hvalid _ (List.mem_cons_of_mem _ hq')).1
                ((List.pairwise_cons.mp hpw).1 _ hq') hcov
            simp only [Nat.zero_mul, List.drop_zero]
            rw [hstay]
            exact hwmem r j hrow
          | k + 1 =>
            have hk' : k < rest.length := by
              have := hk
              simp only [List.length_cons] at this
              omega
            have hchunk : (stream.drop (ext.etcBlockSize fmt)).drop
                (k * ext.etcBlockSize fmt) =
                stream.drop ((k + 1) * ext.etcBlockSize fmt) := by
              rw [List.drop_drop, Nat.succ_mul]
              congr 1
              omega
            have hgets : (((yq, xq) :: rest).get ⟨k + 1, hk⟩) = rest.get ⟨k, hk'⟩ := rfl
            rw [hgets] at hrow ⊢
            have := hplace k hk' r j hrow
            rw [hchunk] at this
            exact this
        · intro p hunc
          have h1 : buf'[p]? = buf1[p]? :=
            hpres' p (fun q' hq' => hunc q' (List.mem_cons_of_mem _ hq'))
          rw [h1]
          exact hwpres p (hunc (yq, xq) (List.mem_cons_self _ _))
    · -- underrun at the head block
      have hdec : decode_single_block ext fmt stream =
          .error (.js (.error "read error")) := by
        unfold decode_single_block
        rw [if_neg hbs]
      constructor
      · intro _
        exact readEtcGo_cons_err hdec
      · intro hle
        omega

theorem blockIndices_eq (bh bw : Nat) :
    blockIndices bh bw = (List.range (bh * bw)).map fun k => (k / bw, k % bw) := by
  induction bh with
  | zero => simp [blockIndices]
  | succ n ihn =>
    rcases Nat.eq_zero_or_pos bw with hbw | hbw
    · subst hbw
      simp [blockIndices]
    · have hB : ([n].flatMap fun yq => (List.range bw).map fun xq => (yq, xq))
          = ((List.range bw).map fun x => n * bw + x).map fun k => (k / bw, k % bw) := by
        simp only [List.flatMap_cons, List.flatMap_nil, List.append_nil, List.map_map]
        apply List.map_congr_left
        intro x hx
        have hxlt : x < bw := List.mem_range.mp hx
        have hdiv : (n * bw + x) / bw = n := by
          rw [Nat.mul_comm n bw, Nat.mul_add_div hbw, Nat.div_eq_of_lt hxlt]
          omega
        have hmod : (n * bw + x) % bw = x := by
          rw [Nat.mul_comm n bw, Nat.mul_add_mod, Nat.mod_eq_of_lt hxlt]
        simp only [Function.comp]
        rw [hdiv, hmod]
      unfold blockIndices
      rw [List.range_succ, List.flatMap_append, Nat.succ_mul, List.range_add,
        List.map_append]
      show blockIndices n bw ++ ([n].flatMap fun yq => (List.range bw).map fun xq => (yq, xq))
          = _
      rw [ihn, hB]

theorem blockIndices_length (bh bw : Nat) : (blockIndices bh bw).length = bh * bw := by
  rw [blockIndices_eq, List.length_map, List.length_range]

theorem blockIndices_valid {bh bw : Nat} {q : Nat × Nat} (hq : q ∈ blockIndices bh bw) :
    q.2 < bw ∧ q.1 < bh := by
  unfold blockIndices at hq
  obtain ⟨yq, hym, hq'⟩ := List.mem_flatMap.mp hq
  obtain ⟨xq, hxm, rfl⟩ := List.mem_map.mp hq'
  exact ⟨List.mem_range.mp hxm, List.mem_range.mp hym⟩

theorem blockIndices_pairwise (bh bw : Nat) :
    List.Pairwise (· ≠ ·) (blockIndices bh bw) := by
  rw [blockIndices_eq]
  refine List.Pairwise.map _ ?_ (List.pairwise_lt_range _)
  intro a b hab hEq
  have h1 : a / bw = b / bw := congrArg Prod.fst hEq
  have h2 : a % bw = b % bw := congrArg Prod.snd hEq
  have e1 := Nat.div_add_mod a bw
  have e2 := Nat.div_add_mod b bw
  rw [h1, h2] at e1
  omega

theorem blockIndices_get (bh bw k : Nat) (hk : k < (blockIndices bh bw).length) :
    (blockIndices bh bw).get ⟨k, hk⟩ = (k / bw, k % bw) := by
  have hk' : k < bh * bw := by
    have := blockIndices_length bh bw
    omega
  have h2 : (blockIndices bh bw)[k]? = some (k / bw, k % bw) := by
    rw [blockIndices_eq, List.getElem?_map, List.getElem?_range hk']
    rfl
  have h1 : (blockIndices bh bw)[k]? = some ((blockIndices bh bw).get ⟨k, hk⟩) := by
    rw [List.getElem?_eq_getElem hk]
    rfl
  rw [h1] at h2
  exact Option.some.inj h2

theorem read_etc_mobile_spec (ext : Externals) (w h : Nat) (fmt : EtcFormat)
    (stream : List Nat) (hw : w % 4 = 0)
    (hu32 : w * 4 < 4294967296) (husize : w * 4 * h < 4294967296) :
    (stream.length < ((h + 3) / 4) * ((w + 3) / 4) * ext.etcBlockSize fmt →
      Texture2D.read_etc ext w h fmt stream = .error (.js (.error "read error")))
    ∧ (((h + 3) / 4) * ((w + 3) / 4) * ext.etcBlockSize fmt ≤ stream.length →
      ∃ buf, Texture2D.read_etc ext w h fmt stream
          = .ok (buf, stream.drop (((h + 3) / 4) * ((w + 3) / 4) * ext.etcBlockSize fmt))
        ∧ buf.length = w * 4 * h
        ∧ ∀ yq xq (r : Fin 4) (j : Fin 16), yq < (h + 3) / 4 → xq < (w + 3) / 4 →
            4 * yq + r.1 < h →
            buf[(h - 1 - 4 * yq - r.1) * (w * 4) + 16 * xq + j.1]?
              = some (ext.etcBlock fmt
                  ((stream.drop ((yq * ((w + 3) / 4) + xq) * ext.etcBlockSize fmt)).take
                    (ext.etcBlockSize fmt)) r j)) := by
  rcases Nat.eq_zero_or_pos (w / 4) with hm | hm
  · -- degenerate case: zero width, no blocks
    have hw0 : w = 0 := by omega
    subst hw0
    have hbw0 : (0 + 3) / 4 = 0 := by norm_num
    have hL : blockIndices ((h + 3) / 4) ((0 + 3) / 4) = [] := by
      rw [hbw0, blockIndices_eq, Nat.mul_zero]
      rfl
    constructor
    · intro hlt
      rw [hbw0] at hlt
      simp at hlt
    · intro _
      refine ⟨List.replicate (0 * 4 * h) 0, ?_, List.length_replicate _ _, ?_⟩
      · show readEtcGo ext fmt (0 * 4)
            (blockIndices ((h + 3) / 4) ((0 + 3) / 4))
            (List.replicate (0 * 4 * h) 0) stream = _
        rw [hL, hbw0]
        simp [readEtcGo]
      · intro yq xq r j _ hxq
        rw [hbw0] at hxq
        omega
  · -- aligned main case
    have hw4 : w = 4 * (w / 4) := by omega
    have hbw : (w + 3) / 4 = w / 4 := by omega
    have hscan : w * 4 = 16 * (w / 4) := by omega
    have hvalid : ∀ q ∈ blockIndices ((h + 3) / 4) (w / 4),
        q.2 < w / 4 ∧ 4 * q.1 < h := by
      intro q hq
      have := blockIndices_valid hq
      omega
    have hlenL := blockIndices_length ((h + 3) / 4) (w / 4)
    obtain ⟨specu, specs⟩ := readEtcGo_spec ext fmt (w / 4) h hm
      (blockIndices ((h + 3) / 4) (w / 4))
      (List.replicate (16 * (w / 4) * h) 0) stream
      (List.length_replicate _ _)
      hvalid (blockIndices_pairwise _ _)
    constructor
    · intro hlt
      show readEtcGo ext fmt (w * 4)
          (blockIndices ((h + 3) / 4) ((w + 3) / 4))
          (List.replicate (w * 4 * h) 0) stream = _
      rw [hbw, hscan]
      apply specu
      rw [hlenL]
      have hmul : (h + 3) / 4 * (w / 4) * ext.etcBlockSize fmt
          = (h + 3) / 4 * ((w + 3) / 4) * ext.etcBlockSize fmt := by rw [hbw]
      omega
    · intro hle
      obtain ⟨buf', heq', hlen', hplace, _⟩ := specs (by
        rw [hlenL]
        have hmul : (h + 3) / 4 * (w / 4) * ext.etcBlockSize fmt
            = (h + 3) / 4 * ((w + 3) / 4) * ext.etcBlockSize fmt := by rw [hbw]
        omega)
      refine ⟨buf', ?_, ?_, ?_⟩
      · show readEtcGo ext fmt (w * 4)
            (blockIndices ((h + 3) / 4) ((w + 3) / 4))
            (List.replicate (w * 4 * h) 0) stream = _
        rw [hbw, hscan, heq', hlenL]
      · rw [hlen', List.length_replicate, hscan]
      · intro yq xq r j hyq hxq hrow
        rw [hbw] at hxq
        have hkmul : (yq + 1) * (w / 4) ≤ (h + 3) / 4 * (w / 4) :=
          Nat.mul_le_mul_right _ (by omega)
        rw [Nat.succ_mul] at hkmul
        have hk : yq * (w / 4) + xq < (blockIndices ((h + 3) / 4) (w / 4)).length := by
          rw [hlenL]
          omega
        have hdivk : (yq * (w / 4) + xq) / (w / 4) = yq := by
          rw [Nat.mul_comm yq (w / 4), Nat.mul_add_div hm, Nat.div_eq_of_lt hxq]
          omega
        have hmodk : (yq * (w / 4) + xq) % (w / 4) = xq := by
          rw [Nat.mul_comm yq (w / 4), Nat.mul_add_mod, Nat.mod_eq_of_lt hxq]
        have hget : (blockIndices ((h + 3) / 4) (w / 4)).get
            ⟨yq * (w / 4) + xq, hk⟩ = (yq, xq) := by
          rw [blockIndices_get, hdivk, hmodk]
        have hpk := hplace (yq * (w / 4) + xq) hk r j (by rw [hget]; exact hrow)
        rw [hget] at hpk
        rw [hbw, hscan]
        exact hpk

/-! ## The claims -/

/-- C1: for every generic struct tagged `Texture2D` whose required fields
are present and well-shaped, the state of the constructed texture entity
is determined exactly by the format code and the streaming path: a code in
the recognized set with an empty path decodes the inline bytes immediately
and yields a resolved entity; a recognized code with a non-empty path
yields a deferred entity; any other code yields an unrecognized entity,
regardless of the streaming descriptor contents. -/
theorem convert_texture2d_state_decision (ext : Externals)
    (fields : List (List Char × Data)) (nm : List Nat) (wv hv code : Int)
    (img : List Nat) (sd : Data) (si : StreamingInfo)
    (hnm : List.lookup (rstr "m_Name") fields = some (.string nm))
    (hwv : List.lookup (rstr "m_Width") fields = some (.sint32 wv))
    (hhv : List.lookup (rstr "m_Height") fields = some (.sint32 hv))
    (himg : List.lookup (rstr "image data") fields = some (.uint8Array img))
    (hfmt : List.lookup (rstr "m_TextureFormat") fields = some (.sint32 code))
    (hsd : List.lookup (rstr "m_StreamData") fields = some sd)
    (hsi : StreamingInfo.from_data sd = .ok si) :
    ((formatOf code).isSome ↔
      code = 10 ∨ code = 12 ∨ code = 34 ∨ code = 45 ∨ code = 46 ∨ code = 47)
    ∧ (∀ format, formatOf code = some format →
        (si.path = [] →
          convert_data ext (.genericStruct (rstr "Texture2D") fields)
            = (Texture2D.read ext (asU32 wv) (asU32 hv) format img).map
                (fun data => .texture
                  { name := utf8Lossy nm, width := asU32 wv, height := asU32 hv,
                    image_data := .loaded data }))
        ∧ (si.path ≠ [] →
          convert_data ext (.genericStruct (rstr "Texture2D") fields)
            = .ok (.texture
                { name := utf8Lossy nm, width := asU32 wv, height := asU32 hv,
                  image_data := .streaming format si })))
    ∧ (formatOf code = none →
        convert_data ext (.genericStruct (rstr "Texture2D") fields)
          = .ok (.texture
              { name := utf8Lossy nm, width := asU32 wv, height := asU32 hv,
                image_data := .unknown })) := by
  refine ⟨?_, ?_, ?_⟩
  · unfold formatOf
    split <;> simp_all
  · intro format hsome
    constructor <;> intro hpath <;>
      simp only [convert_data, if_pos rfl, hnm, hwv, hhv, himg, hfmt, hsd, hsi, hsome]
    · rw [if_pos hpath, if_pos trivial]
      unfold Texture2D.load
      cases hre : Texture2D.read ext (asU32 wv) (asU32 hv) format img <;>
        simp only [hre, Except.map]
    · rw [if_neg hpath, if_pos trivial]
      rfl
  · intro hnone
    simp only [convert_data, if_pos rfl, hnm, hwv, hhv, himg, hfmt, hnone]
    rw [if_pos trivial]
    rfl

/-- Witness for C1: the decision applied to a concrete well-shaped
`Texture2D` struct with recognized code 34 and empty streaming path. -/
theorem convert_texture2d_state_decision_witness :
    convert_data extTriv (.genericStruct (rstr "Texture2D") texAligned)
      = (Texture2D.read extTriv 4 4 (.etc .etcRgb4) (List.replicate 8 0)).map
          (fun data => JsValue.texture
            (Texture2D.mk (rstr "hi") 4 4 (ImageData.loaded data))) :=
  ((convert_texture2d_state_decision extTriv texAligned [104, 105] 4 4 34
      (List.replicate 8 0) _ ⟨[], 0, 0⟩ rfl rfl rfl rfl rfl rfl rfl).2.1
    (.etc .etcRgb4) rfl).1 rfl

/-- C2 (code bug): the deep projector is not total.  On the legal,
well-shaped `Texture2D` value `texUnaligned` (width 2, height 1, format
34, empty path, 8 bytes of image data) the source panics: `read_etc`
slices `target[..16]` out of an 8-byte scanline chunk.  The model returns
the panic outcome instead of a host value or a `JsValue` error. -/
theorem convert_data_panics_on_unaligned_width :
    convert_data extTriv texUnaligned = .error .panic := by rfl

/-- C3 (amended): for a deferred entity, once the container argument
parses, resolution is a silent no-op returning success when the streaming
path lacks the `archive:/` head, when fewer than two `/`-separated
segments follow it, when the container name differs from the first
segment, or when the second segment (the resource name is the text
between the first and second `/`, not everything after the first `/`) is
absent from the container resources. -/
theorem try_resolve_noop_conditions (ext : Externals) (t : Texture2D)
    (input : List Nat) (fs : Container) (format : DecodeFormat) (si : StreamingInfo)
    (hp : ext.parse input = .ok fs)
    (hd : t.image_data = .streaming format si) :
    (¬ (rstr "archive:/").isPrefixOf si.path →
      Texture2D.try_resolve ext t input = (.ok (), t))
    ∧ (∀ seg, splitOnChar '/' (si.path.drop 9) = [seg] →
      Texture2D.try_resolve ext t input = (.ok (), t))
    ∧ (∀ bundle_name resource_name others,
        splitOnChar '/' (si.path.drop 9) = bundle_name :: resource_name :: others →
        (fs.name ≠ bundle_name → Texture2D.try_resolve ext t input = (.ok (), t))
        ∧ (fs.name = bundle_name →
           List.lookup resource_name fs.resources = none →
           Texture2D.try_resolve ext t input = (.ok (), t))) := by
  refine ⟨?_, ?_, ?_⟩
  · intro hpre
    simp only [Texture2D.try_resolve, hp, hd]
    rw [if_neg hpre]
  · intro seg hsp
    simp only [Texture2D.try_resolve, hp, hd]
    by_cases hpre : (rstr "archive:/").isPrefixOf si.path
    · rw [if_pos hpre, hsp]
    · rw [if_neg hpre]
  · intro bundle_name resource_name others hsp
    constructor
    · intro hbn
      simp only [Texture2D.try_resolve, hp, hd]
      by_cases hpre : (rstr "archive:/").isPrefixOf si.path
      · rw [if_pos hpre]
        simp only [hsp]
        rw [if_neg hbn]
      · rw [if_neg hpre]
    · intro hbn hlook
      simp only [Texture2D.try_resolve, hp, hd]
      by_cases hpre : (rstr "archive:/").isPrefixOf si.path
      · rw [if_pos hpre]
        simp only [hsp]
        rw [if_pos hbn]
        simp only [hlook]
      · rw [if_neg hpre]

/-- C3 counterexample: the streaming path `archive:/A/b/c` against a
container named `A` holding a resource `b` and no resource `b/c`.  The
claim predicts a no-op that leaves the entity deferred (resource name =
everything after the first `/`, i.e. `b/c`, absent); the source takes
only the second segment `b`, finds it, and resolves the entity. -/
theorem try_resolve_second_segment_counterexample :
    List.lookup (rstr "b/c") [(rstr "b", List.replicate 8 0)] = none
    ∧ Texture2D.try_resolve extAb texDeferAbc []
      = (.ok (), Texture2D.mk (rstr "tex") 4 4 (ImageData.loaded (List.replicate 64 0))) := by
  constructor
  · decide
  · decide

/-- C4: an out-of-range streaming slice after a positive bundle-name and
resource match is fatal (the Rust slice panic, the spec taxonomy's
RangeError), reported to the caller rather than a no-op success, and the
entity is unchanged. -/
theorem try_resolve_range_fatal (ext : Externals) (t : Texture2D)
    (input : List Nat) (fs : Container) (format : DecodeFormat) (si : StreamingInfo)
    (bundle_name resource_name : List Char) (others : List (List Char))
    (resource : List Nat)
    (hp : ext.parse input = .ok fs)
    (hd : t.image_data = .streaming format si)
    (hpre : (rstr "archive:/").isPrefixOf si.path)
    (hsp : splitOnChar '/' (si.path.drop 9) = bundle_name :: resource_name :: others)
    (hbn : fs.name = bundle_name)
    (hres : List.lookup resource_name fs.resources = some resource)
    (hoob : resource.length < si.offset + si.size) :
    Texture2D.try_resolve ext t input = (.error .panic, t) := by
  simp only [Texture2D.try_resolve, hp, hd]
  rw [if_pos hpre]
  simp only [hsp]
  rw [if_pos hbn]
  simp only [hres]
  rw [if_neg (by omega)]

/-- Witness for C4: descriptor `offset=100, size=50` against a resource of
120 bytes raises the fatal range outcome. -/
theorem try_resolve_range_fatal_witness :
    Texture2D.try_resolve extA120 texDeferRange [] = (.error .panic, texDeferRange) :=
  try_resolve_range_fatal extA120 texDeferRange []
    { name := rstr "A", resources := [(rstr "r", List.replicate 120 0)] }
    (.etc .etcRgb4) { path := rstr "archive:/A/r", offset := 100, size := 50 }
    (rstr "A") (rstr "r") [] (List.replicate 120 0)
    rfl rfl (by decide) (by decide) rfl rfl (by decide)

/-- C5 (amended): when the container argument parses, resolving an entity
that is not deferred returns success and performs no mutation (so a
second resolve after a successful resolution is a no-op); when the
container bytes fail to parse, the call returns the parse error instead,
still without mutation. -/
theorem try_resolve_non_deferred_noop (ext : Externals) (t : Texture2D)
    (input : List Nat) (fs : Container)
    (hp : ext.parse input = .ok fs)
    (hnd : t.image_data.isStreaming = false) :
    Texture2D.try_resolve ext t input = (.ok (), t) := by
  simp only [Texture2D.try_resolve, hp]
  cases hid : t.image_data with
  | loaded d => rfl
  | streaming fm si =>
    rw [hid] at hnd
    exact absurd hnd (by simp [ImageData.isStreaming])
  | unknown => rfl

/-- C5 counterexample: resolving a resolved (non-deferred) entity against
container bytes that do not parse returns the parse error, not success. -/
theorem try_resolve_parse_failure_counterexample :
    Texture2D.try_resolve extTriv texLoaded []
      = (.error (.js (.error "parse failed: invalid")), texLoaded) := by decide

/-- Witness for C5: a resolved entity against a parsing container. -/
theorem try_resolve_non_deferred_noop_witness :
    Texture2D.try_resolve extA120 texLoaded [] = (.ok (), texLoaded) :=
  try_resolve_non_deferred_noop extA120 texLoaded []
    { name := rstr "A", resources := [(rstr "r", List.replicate 120 0)] }
    rfl rfl

/-- Witness for C3: streaming path `archive:/B/x` against a container
named `A` resolves as a silent no-op and the entity stays deferred. -/
theorem try_resolve_noop_conditions_witness :
    Texture2D.try_resolve extAb texDeferBx [] = (.ok (), texDeferBx) :=
  ((try_resolve_noop_conditions extAb texDeferBx []
      { name := rstr "A", resources := [(rstr "b", List.replicate 8 0)] }
      (.etc .etcRgb4) { path := rstr "archive:/B/x", offset := 0, size := 0 }
      rfl rfl).2.2 (rstr "B") (rstr "x") [] (by decide)).1 (by decide)

/-- C6 counterexample: at width 2 (not a multiple of 4), height 1, with a
full 8-byte block available, the mobile decode neither returns a raster
nor reports the read error: it hits the Rust slice panic
(`target[..16]` on an 8-byte chunk). -/
theorem read_etc_unaligned_panic_counterexample :
    Texture2D.read_etc extTriv 2 1 .etcRgb4 (List.replicate 8 0) = .error .panic := by
  decide

/-- C8: whenever resolution fails with a fatal error (parse failure, read
underrun, decode error, encode error, or the range panic), the entity is
left exactly as it was — no partial mutation.  (Resolution is a function
of the one entity and the read-only container, so no other entity can be
affected.) -/
theorem try_resolve_error_preserves_entity (ext : Externals) (t : Texture2D)
    (input : List Nat) (f : Fault)
    (herr : (Texture2D.try_resolve ext t input).1 = .error f) :
    (Texture2D.try_resolve ext t input).2 = t := by
  have key : (Texture2D.try_resolve ext t input).2 = t
      ∨ (Texture2D.try_resolve ext t input).1 = .ok () := by
    unfold Texture2D.try_resolve
    repeat' split
    all_goals first | exact Or.inl rfl | exact Or.inr rfl
  rcases key with h | h
  · exact h
  · rw [h] at herr
    exact absurd herr (by simp)

/-- Witness for C8: a deferred entity whose matching resource is empty, so
decode underruns; the call errors and the entity is unchanged. -/
theorem try_resolve_error_preserves_entity_witness :
    (Texture2D.try_resolve extAempty texDeferShort []).2 = texDeferShort :=
  try_resolve_error_preserves_entity extAempty texDeferShort []
    (.js (.error "read error")) (by decide)

/-- Witness for C6: a 4 x 4 texture with exactly one 8-byte block present
decodes into a 64-byte raster, consuming the whole stream. -/
theorem read_etc_mobile_spec_witness :
    ∃ buf, Texture2D.read_etc extTriv 4 4 .etcRgb4 (List.replicate 8 0)
        = .ok (buf, (List.replicate 8 0).drop
            (((4 + 3) / 4) * ((4 + 3) / 4) * extTriv.etcBlockSize .etcRgb4))
      ∧ buf.length = 4 * 4 * 4
      ∧ ∀ yq xq (r : Fin 4) (j : Fin 16), yq < (4 + 3) / 4 → xq < (4 + 3) / 4 →
          4 * yq + r.1 < 4 →
          buf[(4 - 1 - 4 * yq - r.1) * (4 * 4) + 16 * xq + j.1]?
            = some (extTriv.etcBlock .etcRgb4
                (((List.replicate 8 0).drop
                  ((yq * ((4 + 3) / 4) + xq) * extTriv.etcBlockSize .etcRgb4)).take
                  (extTriv.etcBlockSize .etcRgb4)) r j) :=
  (read_etc_mobile_spec extTriv 4 4 .etcRgb4 (List.replicate 8 0)
    rfl (by decide) (by decide)).2 (by decide)

/-- C7 counterexample: a `Texture2D` struct with format code 99 and NO
`m_StreamData` field projects successfully to an unrecognized-format
entity; the claim predicts a hard error for the missing required field. -/
theorem convert_unrecognized_format_ignores_streamdata :
    List.lookup (rstr "m_StreamData") texNoStream99Fields = none
    ∧ convert_data extTriv (.genericStruct (rstr "Texture2D") texNoStream99Fields)
      = .ok (.texture (Texture2D.unknown [] 1 1)) :=
  ⟨rfl, rfl⟩

/-- C7 (amended): projection of a `Texture2D` struct demands `m_Name`,
`m_Width`, `m_Height`, `image data` and `m_TextureFormat` (in that order),
failing with a field-name-identifying error when one is missing or has the
wrong variant; `m_StreamData` is demanded only when the format code is
recognized — with an unrecognized code the struct projects to an
unrecognized entity even if `m_StreamData` is missing or malformed. -/
theorem convert_texture2d_required_fields (ext : Externals)
    (fields : List (List Char × Data)) :
    (List.lookup (rstr "m_Name") fields = none →
      convert_data ext (.genericStruct (rstr "Texture2D") fields)
        = .error (.js (.error "m_Name not found")))
    ∧ (∀ d, List.lookup (rstr "m_Name") fields = some d →
        (∀ bs, d ≠ .string bs) →
        convert_data ext (.genericStruct (rstr "Texture2D") fields)
          = .error (.js (.error "m_Name type mismatch")))
    ∧ (∀ nm, List.lookup (rstr "m_Name") fields = some (.string nm) →
      (List.lookup (rstr "m_Width") fields = none →
        convert_data ext (.genericStruct (rstr "Texture2D") fields)
          = .error (.js (.error "m_Width not found")))
      ∧ (∀ d, List.lookup (rstr "m_Width") fields = some d →
          (∀ v, d ≠ .sint32 v) →
          convert_data ext (.genericStruct (rstr "Texture2D") fields)
            = .error (.js (.error "m_Width type mismatch")))
      ∧ (∀ wv, List.lookup (rstr "m_Width") fields = some (.sint32 wv) →
        (List.lookup (rstr "m_Height") fields = none →
          convert_data ext (.genericStruct (rstr "Texture2D") fields)
            = .error (.js (.error "m_Height not found")))
        ∧ (∀ d, List.lookup (rstr "m_Height") fields = some d →
            (∀ v, d ≠ .sint32 v) →
            convert_data ext (.genericStruct (rstr "Texture2D") fields)
              = .error (.js (.error "m_Height type mismatch")))
        ∧ (∀ hv, List.lookup (rstr "m_Height") fields = some (.sint32 hv) →
          (List.lookup (rstr "image data") fields = none →
            convert_data ext (.genericStruct (rstr "Texture2D") fields)
              = .error (.js (.error "image data not found")))
          ∧ (∀ d, List.lookup (rstr "image data") fields = some d →
              (∀ bs, d ≠ .uint8Array bs) →
              convert_data ext (.genericStruct (rstr "Texture2D") fields)
                = .error (.js (.error "image data type mismatch")))
          ∧ (∀ img, List.lookup (rstr "image data") fields = some (.uint8Array img) →
            (List.lookup (rstr "m_TextureFormat") fields = none →
              convert_data ext (.genericStruct (rstr "Texture2D") fields)
                = .error (.js (.error "m_TextureFormat not found")))
            ∧ (∀ d, List.lookup (rstr "m_TextureFormat") fields = some d →
                (∀ v, d ≠ .sint32 v) →
                convert_data ext (.genericStruct (rstr "Texture2D") fields)
                  = .error (.js (.error "m_TextureFormat type mismatch")))
            ∧ (∀ code,
                List.lookup (rstr "m_TextureFormat") fields = some (.sint32 code) →
              (∀ format, formatOf code = some format →
                (List.lookup (rstr "m_StreamData") fields = none →
                  convert_data ext (.genericStruct (rstr "Texture2D") fields)
                    = .error (.js (.error "m_StreamData not found")))
                ∧ (∀ sd e, List.lookup (rstr "m_StreamData") fields = some sd →
                    StreamingInfo.from_data sd = .error e →
                    convert_data ext (.genericStruct (rstr "Texture2D") fields)
                      = .error e))
              ∧ (formatOf code = none →
                  convert_data ext (.genericStruct (rstr "Texture2D") fields)
                    = .ok (.texture
                        (Texture2D.unknown (utf8Lossy nm) (asU32 wv) (asU32 hv))))))))) := by
  refine ⟨?_, ?_, ?_⟩
  · intro hnm
    simp only [convert_data, hnm]
    rw [if_pos trivial]
  · intro d hnm hne
    cases d <;> simp only [convert_data, hnm] <;> rw [if_pos trivial] <;>
      first | rfl | exact (hne _ rfl).elim
  · intro nm hnm
    refine ⟨?_, ?_, ?_⟩
    · intro hwv
      simp only [convert_data, hnm, hwv]
      rw [if_pos trivial]
    · intro d hwv hne
      cases d <;> simp only [convert_data, hnm, hwv] <;> rw [if_pos trivial] <;>
        first | rfl | exact (hne _ rfl).elim
    · intro wv hwv
      refine ⟨?_, ?_, ?_⟩
      · intro hhv
        simp only [convert_data, hnm, hwv, hhv]
        rw [if_pos trivial]
      · intro d hhv hne
        cases d <;> simp only [convert_data, hnm, hwv, hhv] <;> rw [if_pos trivial] <;>
          first | rfl | exact (hne _ rfl).elim
      · intro hv hhv
        refine ⟨?_, ?_, ?_⟩
        · intro himg
          simp only [convert_data, hnm, hwv, hhv, himg]
          rw [if_pos trivial]
        · intro d himg hne
          cases d <;> simp only [convert_data, hnm, hwv, hhv, himg] <;>
            rw [if_pos trivial] <;> first | rfl | exact (hne _ rfl).elim
        · intro img himg
          refine ⟨?_, ?_, ?_⟩
          · intro hfc
            simp only [convert_data, hnm, hwv, hhv, himg, hfc]
            rw [if_pos trivial]
          · intro d hfc hne
            cases d <;> simp only [convert_data, hnm, hwv, hhv, himg, hfc] <;>
              rw [if_pos trivial] <;> first | rfl | exact (hne _ rfl).elim
          · intro code hfc
            refine ⟨?_, ?_⟩
            · intro format hsome
              refine ⟨?_, ?_⟩
              · intro hsd
                simp only [convert_data, hnm, hwv, hhv, himg, hfc, hsome, hsd]
                rw [if_pos trivial]
              · intro sd e hsd herr
                simp only [convert_data, hnm, hwv, hhv, himg, hfc, hsome, hsd, herr]
                rw [if_pos trivial]
            · intro hnone
              simp only [convert_data, hnm, hwv, hhv, himg, hfc, hnone]
              rw [if_pos trivial]

/-- Witness for C7: a `Texture2D` struct with no fields at all fails with
the `m_Name not found` error. -/
theorem convert_texture2d_required_fields_witness :
    convert_data extTriv (.genericStruct (rstr "Texture2D") [])
      = .error (.js (.error "m_Name not found")) :=
  (convert_texture2d_required_fields extTriv []).1 rfl

/-- C9: shallow projection of a generic array maps each element with the
scalar rules, wrapping every struct, array, pair, and opaque-primitive
element as a handle without expanding it; deep projection of such an
element (what a handle's data accessor runs) does expand it one level. -/
theorem projection_shallow_vs_deep (ext : Externals) :
    (∀ arr, convert_data ext (.genericArray arr)
      = .ok (.arr (arr.map convert_shallow)))
    ∧ (∀ a b, convert_shallow (.pair a b) = .handle (.pair a b))
    ∧ (∀ tn fs, convert_shallow (.genericStruct tn fs) = .handle (.genericStruct tn fs))
    ∧ (∀ l, convert_shallow (.genericArray l) = .handle (.genericArray l))
    ∧ (∀ tn d, convert_shallow (.genericPrimitive tn d)
        = .handle (.genericPrimitive tn d))
    ∧ (∀ a b, convert_data ext (.pair a b) = .ok (.arr [.handle a, .handle b]))
    ∧ (∀ tn fs, tn ≠ rstr "Texture2D" →
        convert_data ext (.genericStruct tn fs)
          = .ok (.obj (fs.map fun kv => (kv.1, convert_shallow kv.2))))
    ∧ (∀ l, convert_data ext (.genericArray l) = .ok (.arr (l.map convert_shallow)))
    ∧ (∀ tn d, convert_data ext (.genericPrimitive tn d) = .ok (.bytes d)) := by
  refine ⟨fun arr => rfl, fun a b => rfl, fun tn fs => rfl, fun l => rfl,
    fun tn d => rfl, fun a b => rfl, ?_, fun l => rfl, fun tn d => rfl⟩
  intro tn fs hne
  simp only [convert_data, if_neg hne]

/-- Witness for C9: a one-field generic struct with a pair-valued field
projects deeply to a record whose field holds a wrapped handle. -/
theorem projection_shallow_vs_deep_witness :
    convert_data extTriv
      (.genericStruct (rstr "Foo") [(rstr "k", .pair (.uint8 1) (.bool true))])
      = .ok (.obj [(rstr "k", .handle (.pair (.uint8 1) (.bool true)))]) :=
  (projection_shallow_vs_deep extTriv).2.2.2.2.2.2.1
    (rstr "Foo") [(rstr "k", .pair (.uint8 1) (.bool true))] (by decide)

theorem utf8DecodeOne_pos (l : List Nat) : 1 ≤ (utf8DecodeOne l).2 := by
  unfold utf8DecodeOne
  repeat' split
  all_goals simp

theorem utf8LossyGo_replacement : ∀ (fuel : Nat) (l : List Nat), l.length ≤ fuel →
    utf8ValidGo fuel l = false → replacement ∈ utf8LossyGo fuel l := by
  intro fuel
  induction fuel with
  | zero =>
    intro l hl hv
    have hnil : l = [] := List.eq_nil_of_length_eq_zero (by omega)
    subst hnil
    simp [utf8ValidGo] at hv
  | succ n ihn =>
    intro l hl hv
    cases l with
    | nil => simp [utf8ValidGo] at hv
    | cons b rest =>
      rcases hstep : utf8DecodeOne (b :: rest) with ⟨ocp, k⟩
      have hk : 1 ≤ k := by
        have := utf8DecodeOne_pos (b :: rest)
        rw [hstep] at this
        exact this
      cases ocp with
      | none =>
        simp only [utf8LossyGo, hstep]
        exact List.mem_cons_self _ _
      | some cp =>
        simp only [utf8ValidGo, hstep] at hv
        simp only [utf8LossyGo, hstep]
        apply List.mem_cons_of_mem
        apply ihn
        · simp only [List.length_drop, List.length_cons]
          simp only [List.length_cons] at hl
          omega
        · exact hv

/-- C10: extraction of `m_Name` (texture path) and `path` (streaming
descriptor) decodes the byte string lossily and never fails on invalid
UTF-8 — with an unrecognized format code the texture entity still carries
the lossily decoded name — whereas the general projector exposes invalid
byte strings as raw buffers and decodes valid ones strictly; on invalid
bytes the lossy decoding contains the replacement character U+FFFD. -/
theorem lossy_name_path_extraction :
    (∀ pathBytes o z,
      StreamingInfo.from_data (.genericStruct (rstr "StreamingInfo")
        [(rstr "path", .string pathBytes), (rstr "offset", .uint32 o),
         (rstr "size", .uint32 z)])
        = .ok { path := utf8Lossy pathBytes, offset := o, size := z })
    ∧ (∀ ext fields nm wv hv img code,
        List.lookup (rstr "m_Name") fields = some (.string nm) →
        List.lookup (rstr "m_Width") fields = some (.sint32 wv) →
        List.lookup (rstr "m_Height") fields = some (.sint32 hv) →
        List.lookup (rstr "image data") fields = some (.uint8Array img) →
        List.lookup (rstr "m_TextureFormat") fields = some (.sint32 code) →
        formatOf code = none →
        convert_data ext (.genericStruct (rstr "Texture2D") fields)
          = .ok (.texture (Texture2D.unknown (utf8Lossy nm) (asU32 wv) (asU32 hv))))
    ∧ (∀ bs, utf8Valid bs = false → convert_shallow (.string bs) = .bytes bs)
    ∧ (∀ bs, utf8Valid bs = true → convert_shallow (.string bs) = .str (utf8Lossy bs))
    ∧ (∀ bs, utf8Valid bs = false → replacement ∈ utf8Lossy bs) := by
  refine ⟨?_, ?_, ?_, ?_, ?_⟩
  · intro pathBytes o z
    rfl
  · intro ext fields nm wv hv img code hnm hwv hhv himg hfc hnone
    simp only [convert_data, hnm, hwv, hhv, himg, hfc, hnone]
    rw [if_pos trivial]
  · intro bs hbs
    simp only [convert_shallow, hbs]
    rw [if_neg (by simp [hbs])]
  · intro bs hbs
    simp only [convert_shallow, hbs]
    rw [if_pos (by simp [hbs])]
  · intro bs hbs
    exact utf8LossyGo_replacement bs.length bs (le_refl _) hbs

/-- Witness for C10: the invalid byte string `[255]` — lossy name and path
extraction succeed with the replacement character, the general projector
exposes the raw buffer. -/
theorem lossy_name_path_extraction_witness :
    StreamingInfo.from_data (.genericStruct (rstr "StreamingInfo")
      [(rstr "path", .string [255]), (rstr "offset", .uint32 0),
       (rstr "size", .uint32 0)])
      = .ok { path := utf8Lossy [255], offset := 0, size := 0 }
    ∧ convert_shallow (.string [255]) = .bytes [255]
    ∧ replacement ∈ utf8Lossy [255] :=
  ⟨lossy_name_path_extraction.1 [255] 0 0,
   lossy_name_path_extraction.2.2.1 [255] (by decide),
   lossy_name_path_extraction.2.2.2.2 [255] (by decide)⟩
